import Mathlib

/-!
Verification of the LyricsOverlay repository.

The Rust sources (`lyrics_parser.rs`, `lyrics_fetch.rs`, `spotify.rs`,
`runtime.rs`, `settings.rs`) are shallowly embedded below.  Strings are
modeled as `List Char` (Rust `str` operations work on the character
sequence; every index the source uses falls on a character boundary, so
byte indices and character indices agree for the operations modeled
here).  `u64` values are `Nat`s; `str::parse::<u64>` rejects values that
do not fit in 64 bits, and the one arithmetic expression on parsed
values reduces modulo `2^64`.  `f64` fields are modeled as exact
rational numbers (every finite `f64` is a rational; no claim depends on
floating-point rounding or on the exact decimal rendering).
-/

namespace LyricsOverlay

/-! ## Rust string primitives -/

/-- Unicode code points with the White_Space property, as used by
`char::is_whitespace` (and hence by `str::trim`). -/
def isRustWhitespace (c : Char) : Bool :=
  [0x09, 0x0A, 0x0B, 0x0C, 0x0D, 0x20, 0x85, 0xA0, 0x1680,
   0x2000, 0x2001, 0x2002, 0x2003, 0x2004, 0x2005, 0x2006, 0x2007,
   0x2008, 0x2009, 0x200A, 0x2028, 0x2029, 0x202F, 0x205F, 0x3000].contains c.toNat

/-- Drop leading whitespace characters. -/
def trimLeft : List Char → List Char
  | [] => []
  | c :: cs => if isRustWhitespace c then trimLeft cs else c :: cs

/-- Model of `str::trim`: drop leading and trailing whitespace. -/
def rustTrim (s : List Char) : List Char :=
  ((trimLeft ((trimLeft s).reverse)).reverse)

/-- Drop one trailing carriage return, as `str::lines` does on every
newline-terminated segment. -/
def stripCr (l : List Char) : List Char :=
  if l.getLast? = some '\r' then l.dropLast else l

/-- Helper for `rustLines`; `acc` holds the current segment reversed. -/
def rustLinesAux : List Char → List Char → List (List Char)
  | acc, [] => if acc.isEmpty then [] else [acc.reverse]
  | acc, c :: cs =>
    if c = '\n' then stripCr acc.reverse :: rustLinesAux [] cs
    else rustLinesAux (c :: acc) cs

/-- Model of `str::lines`: split at `'\n'`, dropping a `'\r'` directly
before each `'\n'`; a final segment not terminated by `'\n'` is kept as
is, and a trailing newline does not produce an empty final line. -/
def rustLines (s : List Char) : List (List Char) :=
  rustLinesAux [] s

/-- Is `c` an ASCII digit? -/
def isAsciiDigit (c : Char) : Bool :=
  '0' ≤ c && c ≤ '9'

/-- Accumulate the value of a digit string. -/
def digitsToNat : List Char → Nat → Nat
  | [], acc => acc
  | c :: cs, acc => digitsToNat cs (acc * 10 + (c.toNat - '0'.toNat))

/-- Model of `str::parse::<u64>`: an optional leading `'+'`, then a
nonempty run of ASCII digits and nothing else; the value must fit in
64 bits (Rust's parse fails with an overflow error otherwise). -/
def parseU64 (s : List Char) : Option Nat :=
  let ds := match s with
            | '+' :: rest => rest
            | _ => s
  if ds.isEmpty then none
  else if ds.all isAsciiDigit then
    let n := digitsToNat ds 0
    if n < 2 ^ 64 then some n else none
  else none

/-- Split at the first occurrence of `sep`: `some (before, after)` when
`sep` occurs, `none` otherwise.  Models both `str::find` plus slicing
and `str::splitn(2, sep)` (which yields two parts exactly when `sep`
occurs). -/
def splitAtFirst (sep : Char) : List Char → Option (List Char × List Char)
  | [] => none
  | c :: cs =>
    if c = sep then some ([], cs)
    else (splitAtFirst sep cs).map (fun p => (c :: p.1, p.2))

/-! ## `lyrics_parser.rs` -/

/-- One timestamped lyrics line (`LyricLine` in `lyrics_parser.rs`). -/
structure LyricLine where
  time_ms : Nat
  text : List Char
deriving DecidableEq, Repr

/-- Modulus of `u64` arithmetic. -/
def U64_MOD : Nat := 2 ^ 64

/-- Split of the part after the first `':'` into seconds and
centiseconds, following `parse_time_tag`: first `'.'` if present, else
first `':'`, else the whole part with a literal `"0"` fraction. -/
def secSplit (p : List Char) : List Char × List Char :=
  match splitAtFirst '.' p with
  | some q => q
  | none =>
    match splitAtFirst ':' p with
    | some q => q
    | none => (p, ['0'])

/-- Model of `parse_time_tag`: `splitn(2, ':')` must yield two parts;
minutes and seconds must parse as `u64` after trimming; a fraction that
fails to parse defaults to `0` (`unwrap_or(0)`); the result is the
offset in milliseconds (u64 arithmetic). -/
def parse_time_tag (tag : List Char) : Option Nat :=
  match splitAtFirst ':' tag with
  | none => none
  | some parts =>
    match parseU64 (rustTrim parts.1) with
    | none => none
    | some minutes =>
      let sc := secSplit parts.2
      match parseU64 (rustTrim sc.1) with
      | none => none
      | some secs =>
        let centis := (parseU64 (rustTrim sc.2)).getD 0
        some ((minutes * 60000 + secs * 1000 + centis * 10) % U64_MOD)

theorem splitAtFirst_length {sep : Char} :
    ∀ {l a b : List Char}, splitAtFirst sep l = some (a, b) → b.length < l.length := by
  intro l
  induction l with
  | nil => intro a b h; simp [splitAtFirst] at h
  | cons c cs ih =>
    intro a b h
    by_cases hc : c = sep
    · rw [splitAtFirst, if_pos hc] at h
      injection h with h
      rw [Prod.mk.injEq] at h
      rw [← h.2]
      simp
    · rw [splitAtFirst, if_neg hc] at h
      cases hsp : splitAtFirst sep cs with
      | none => rw [hsp] at h; simp at h
      | some p =>
        rw [hsp] at h
        simp only [Option.map_some'] at h
        injection h with h
        rw [Prod.mk.injEq] at h
        have := ih (a := p.1) (b := p.2) (by rw [hsp])
        rw [← h.2]
        simp only [List.length_cons]
        omega

theorem trimLeft_length : ∀ l : List Char, (trimLeft l).length ≤ l.length := by
  intro l
  induction l with
  | nil => simp [trimLeft]
  | cons c cs ih =>
    by_cases h : isRustWhitespace c
    · simp [trimLeft, h]; omega
    · simp [trimLeft, h]

theorem rustTrim_length (l : List Char) : (rustTrim l).length ≤ l.length := by
  have h1 := trimLeft_length l
  have h2 := trimLeft_length ((trimLeft l).reverse)
  simp [rustTrim]
  simp [List.length_reverse] at h2
  omega

/-- Fueled form of the tag-stripping `while` loop of `parse_lrc`.  Each
iteration strictly shortens the remainder by at least two characters,
so the fuel `processLine` supplies can never run out (see
`processLineAux_fuel_sufficient`); the `0` case is unreachable. -/
def processLineAux : Nat → Bool → List Char → Option LyricLine
  | 0, _, _ => none
  | fuel + 1, strip, rest =>
    match rest with
    | [] => none
    | c :: body =>
      if c = '[' then
        match splitAtFirst ']' body with
        | none => none
        | some (tag, after) =>
          match parse_time_tag tag with
          | some ms =>
            if strip && (rustTrim after).isEmpty then none
            else some ⟨ms, rustTrim after⟩
          | none => processLineAux fuel strip (rustTrim after)
      else none

/-- Model of the tag-stripping `while` loop in `parse_lrc`, acting on
one already-trimmed input line.  While the remainder starts with `'['`:
cut at the first `']'`; on a timestamp tag, the (trimmed) remainder of
the line becomes the text and the loop stops (dropping the line when
`strip` is set and the text is empty); a non-timestamp tag is metadata
and the loop continues; a missing `']'` stops the loop with no line. -/
def processLine (strip : Bool) (rest : List Char) : Option LyricLine :=
  processLineAux (rest.length + 1) strip rest

/-- Lines collected by `parse_lrc` in input order, before the final
sort: each raw line is trimmed, blank lines are skipped, the rest go
through the tag loop. -/
def collectLines (content : List Char) (strip : Bool) : List LyricLine :=
  (rustLines content).filterMap (fun raw =>
    let t := rustTrim raw
    if t.isEmpty then none else processLine strip t)

/-- Stable insertion, keyed by `time_ms`: the new element goes before
every element with an equal or larger key. -/
def insertByKey (x : LyricLine) : List LyricLine → List LyricLine
  | [] => [x]
  | y :: ys => if y.time_ms < x.time_ms then y :: insertByKey x ys else x :: y :: ys

/-- Stable sort by `time_ms`, modeling `Vec::sort_by_key` (a stable
sort; any two stable sorts agree extensionally). -/
def sortByKey : List LyricLine → List LyricLine
  | [] => []
  | x :: xs => insertByKey x (sortByKey xs)

/-- Model of `parse_lrc`: collect the timestamped lines, then stably
sort them by millisecond offset. -/
def parse_lrc (content : List Char) (strip_empty_lines : Bool) : List LyricLine :=
  sortByKey (collectLines content strip_empty_lines)

/-- Cursor position (`LyricPosition` in `lyrics_parser.rs`). -/
inductive LyricPosition where
  | BeforeStart
  | Line (i : Nat)
  | AfterEnd
deriving DecidableEq, Repr

/-- The scan loop of `find_current_index`: advance while the current
line's offset is `≤ elapsed`, remembering the last such index; return
the remembered position at the first larger offset; reaching the end of
the list means `AfterEnd`. -/
def findAux (elapsed : Nat) : List LyricLine → Nat → LyricPosition → LyricPosition
  | [], _, _ => LyricPosition.AfterEnd
  | l :: ls, i, pos =>
    if l.time_ms ≤ elapsed then findAux elapsed ls (i + 1) (LyricPosition.Line i)
    else pos

/-- Model of `find_current_index`: empty input is `BeforeStart`,
otherwise run the scan loop from index 0 with `BeforeStart`. -/
def find_current_index (lyrics : List LyricLine) (elapsed_ms : Nat) : LyricPosition :=
  if lyrics.isEmpty then LyricPosition.BeforeStart
  else findAux elapsed_ms lyrics 0 LyricPosition.BeforeStart

/-! ## `settings.rs` -/

/-- Model of `Settings` (fields used by the core; `f32` fields modeled
as rationals). -/
structure Settings where
  host : String
  port : Nat
  client_id : String
  client_secret : String
  log_level : String
  opacity : Rat
  font_size : Rat
  caching_enabled : Bool
  cache_folder : String
deriving DecidableEq, Repr

/-- Model of `Settings::redirect_url`. -/
def Settings.redirect_url (s : Settings) : String :=
  "http://" ++ s.host ++ ":" ++ toString s.port

/-! ## `spotify.rs`: data model -/

/-- Artist item of the spotify API. -/
structure Artist where
  name : String
deriving DecidableEq, Repr

/-- Album item of the spotify API. -/
structure Album where
  name : String
deriving DecidableEq, Repr

/-- Track item of the spotify API. -/
structure Track where
  name : String
  id : String
  duration_ms : Nat
  artists : List Artist
  album : Album
deriving DecidableEq, Repr

/-- Model of `Track::get_artist`, i.e. `self.artists.first().unwrap().name`.
The `unwrap` panics when `artists` is empty; no claim reaches that case,
and it is modeled by the `""` default. -/
def Track.get_artist (t : Track) : String :=
  ((t.artists.head?).map Artist.name).getD ""

/-- Model of `Track::get_album`. -/
def Track.get_album (t : Track) : String :=
  t.album.name

/-- Model of `Track::get_duration_sec`, i.e. `duration_ms as f64 / 1000.0`
(`f64` modeled as an exact rational). -/
def Track.get_duration_sec (t : Track) : Rat :=
  (t.duration_ms : Rat) / 1000

/-- Response of the currently-playing endpoint. -/
structure CurrentlyPlayingResponse where
  currently_playing_type : String
  item : Option Track
  is_playing : Bool
  progress_ms : Nat
deriving DecidableEq, Repr

/-- Model of `CurrentlyPlayingResponse::is_track`. -/
def CurrentlyPlayingResponse.is_track (r : CurrentlyPlayingResponse) : Bool :=
  r.currently_playing_type == "track" && r.item.isSome

/-- Model of `CurrentlyPlayingResponse::get_track_title`. -/
def CurrentlyPlayingResponse.get_track_title (r : CurrentlyPlayingResponse) : Option String :=
  r.item.map (fun t => t.name)

/-- Model of `CurrentlyPlayingResponse::get_artist`. -/
def CurrentlyPlayingResponse.get_artist (r : CurrentlyPlayingResponse) : Option String :=
  r.item.map (fun t => t.get_artist)

/-- Model of `CurrentlyPlayingResponse::get_album`. -/
def CurrentlyPlayingResponse.get_album (r : CurrentlyPlayingResponse) : Option String :=
  r.item.map (fun t => t.get_album)

/-- Model of `CurrentlyPlayingResponse::get_duration_sec`. -/
def CurrentlyPlayingResponse.get_duration_sec (r : CurrentlyPlayingResponse) : Option Rat :=
  r.item.map Track.get_duration_sec

/-- Model of `CurrentlyPlayingResponse::get_spotify_id`. -/
def CurrentlyPlayingResponse.get_spotify_id (r : CurrentlyPlayingResponse) : Option String :=
  r.item.map (fun t => t.id)

/-- Error enum for spotify authentication requests
(`SpotifyClientAuthError`); payloads of wrapped upstream errors are
their messages. -/
inductive SpotifyClientAuthError where
  | Unknown
  | MissingClientId
  | MissingClientSecret
  | NotAuthenticated
  | MissingCodeAuthError
  | MissingStateAuthError
  | CrsfMismatch
  | UrlParse (e : String)
  | IoError (e : String)
  | TokenRequest (e : String)
  | ReqwestError (e : String)
deriving DecidableEq, Repr

/-- Error enum for spotify requests (`SpotifyClientError`). -/
inductive SpotifyClientError where
  | NotAuthenticated
  | NotATrack
  | NoContentResponse
  | UrlParse (e : String)
  | IoError (e : String)
  | TokenRequest (e : String)
  | ReqwestError (e : String)
deriving DecidableEq, Repr

/-! ## `spotify.rs`: `get_current_track` -/

/-- Network response injected into `get_current_track`: the HTTP status
and the result of deserializing the body as `CurrentlyPlayingResponse`
(`response.json()`, error message on failure). -/
structure HttpTrackResponse where
  status : Nat
  body_json : Except String CurrentlyPlayingResponse
deriving Repr

/-- Model of `SpotifyClient::get_current_track`.  `access_token` is the
contents of the token cell; `send` is the outcome of the HTTP GET
(error message on transport failure).  A missing token fails with
`NotAuthenticated` before the request; status 204 maps to
`NoContentResponse`; a body whose `currently_playing_type` is not
`"track"` maps to `NotATrack`; otherwise the response is returned. -/
def get_current_track (access_token : Option String)
    (send : Except String HttpTrackResponse) :
    Except SpotifyClientError CurrentlyPlayingResponse :=
  match access_token with
  | none => .error .NotAuthenticated
  | some _ =>
    match send with
    | .error e => .error (.ReqwestError e)
    | .ok response =>
      if response.status = 204 then .error .NoContentResponse
      else
        match response.body_json with
        | .error e => .error (.ReqwestError e)
        | .ok playing =>
          if playing.currently_playing_type ≠ "track" then .error .NotATrack
          else .ok playing

/-! ## `spotify.rs`: authentication flow -/

/-- Externally visible side effects of `authenticate`, in program
order: opening the browser at the authorization URL, binding the local
callback listener, and issuing the token-exchange POST. -/
inductive AuthEffect where
  | openBrowser (url : String)
  | bindListener (addr : String)
  | tokenExchange (code : String)
deriving DecidableEq, Repr

/-- Environment injected into `authenticate`: the random PKCE pair and
CSRF token, the outcomes of URL parsing and of the fallible external
operations, and the `(code, state)` pair the callback listener hands
over on its one-shot channel. -/
structure AuthEnv where
  pkce_verifier : String
  pkce_challenge : String
  csrf_token : String
  redirect_url_ok : Bool
  browser_ok : Bool
  url_parse_ok : Bool
  url_host : Option String
  url_port : Option Nat
  addr_ok : Bool
  callback : Option String × Option String
  token_exchange : Except String String
deriving Repr

/-- Outcome of a Rust function that can also panic (`unwrap`/`expect`). -/
inductive RustOutcome (ε α : Type) where
  | ok (a : α)
  | err (e : ε)
  | panicked (msg : String)
deriving DecidableEq, Repr

/-- Authorization URL built by `authorize_url` from the configured
client id, the scopes, the PKCE challenge and the CSRF state. -/
def authUrlString (client_id : String) (env : AuthEnv) (redirect : String) : String :=
  "https://accounts.spotify.com/authorize?response_type=code&client_id=" ++ client_id
    ++ "&redirect_uri=" ++ redirect ++ "/callback"
    ++ "&scope=user-read-currently-playing+user-read-playback-state"
    ++ "&code_challenge=" ++ env.pkce_challenge
    ++ "&code_challenge_method=S256&state=" ++ env.csrf_token

/-- Model of `SpotifyClient::authenticate`, returning the outcome (on
success, the new contents of the shared token cell) together with the
ordered list of external effects.  It follows the source in order:
empty-credential checks before anything else; oauth client and URL
construction (`RedirectUrl::new` may fail); browser open; `Url::parse`
/ host / port / socket-address `expect`s (panics); listener bind; await
of the one-shot callback; code / state / CSRF checks; token exchange;
token store. -/
def authenticate (settings : Settings) (env : AuthEnv) :
    RustOutcome SpotifyClientAuthError (Option String) × List AuthEffect :=
  let client_id := settings.client_id
  let client_secret := settings.client_secret
  let redirect := settings.redirect_url
  if client_id = "" then (.err .MissingClientId, [])
  else if client_secret = "" then (.err .MissingClientSecret, [])
  else if ¬ env.redirect_url_ok then (.err (.UrlParse "relative URL without a base"), [])
  else
    let auth_url := authUrlString client_id env redirect
    if ¬ env.browser_ok then
      (.err (.IoError "failed to open browser"), [AuthEffect.openBrowser auth_url])
    else
      let trace0 := [AuthEffect.openBrowser auth_url]
      if ¬ env.url_parse_ok then (.panicked "Invalid URL", trace0)
      else
        match env.url_host with
        | none => (.panicked "Missing host", trace0)
        | some host =>
          match env.url_port with
          | none => (.panicked "Missing port", trace0)
          | some port =>
            if ¬ env.addr_ok then (.panicked "Invalid socket address", trace0)
            else
              let trace1 := trace0 ++ [AuthEffect.bindListener (host ++ ":" ++ toString port)]
              match env.callback.1 with
              | none => (.err .MissingCodeAuthError, trace1)
              | some code =>
                match env.callback.2 with
                | none => (.err .MissingStateAuthError, trace1)
                | some state =>
                  if state ≠ env.csrf_token then (.err .CrsfMismatch, trace1)
                  else
                    let trace2 := trace1 ++ [AuthEffect.tokenExchange code]
                    match env.token_exchange with
                    | .error e => (.err (.TokenRequest e), trace2)
                    | .ok token => (.ok (some token), trace2)

/-! ## `spotify.rs`: the `/callback` warp route -/

/-- State of the two one-shot senders held by the callback closure
behind `Arc<Mutex<Option<Sender>>>`; `some ()` means the sender has not
been taken yet. -/
structure CallbackChannels where
  tx_content : Option Unit
  tx_shutdown : Option Unit
deriving DecidableEq, Repr

/-- Channel state at the start of one `authenticate` call. -/
def initialChannels : CallbackChannels :=
  { tx_content := some (), tx_shutdown := some () }

/-- What one request to `/callback` did: the `(code, state)` pair sent
on the content one-shot (if any), whether the shutdown one-shot fired,
and the HTTP response body. -/
structure CallbackEffects where
  delivered : Option (Option String × Option String)
  shutdown_sent : Bool
  response : String
deriving DecidableEq, Repr

/-- Static confirmation page returned by the callback route. -/
def confirmationHtml : String :=
  "<html><body><h1>Authentication successful!</h1><p>You can close this window.</p></body></html>"

/-- Query-parameter lookup (`HashMap::get`), on an association list. -/
def lookupParam (params : List (String × String)) (k : String) : Option String :=
  (params.find? (fun p => p.1 == k)).map (fun p => p.2)

/-- Model of the `/callback` route closure: read `code` and `state`
from the query, `take()` each one-shot sender under its mutex and fire
it if still present, and reply with the static confirmation page. -/
def callback_route (st : CallbackChannels) (params : List (String × String)) :
    CallbackChannels × CallbackEffects :=
  let code := lookupParam params "code"
  let state := lookupParam params "state"
  let (st1, delivered) :=
    match st.tx_content with
    | some _ => ({ st with tx_content := none }, some (code, state))
    | none => (st, none)
  let (st2, shut) :=
    match st1.tx_shutdown with
    | some _ => ({ st1 with tx_shutdown := none }, true)
    | none => (st1, false)
  (st2, { delivered := delivered, shutdown_sent := shut, response := confirmationHtml })

/-- Run a sequence of requests against the callback route, threading
the channel state. -/
def runCallbacks (st : CallbackChannels) :
    List (List (String × String)) → List CallbackEffects
  | [] => []
  | p :: ps =>
    let (st', eff) := callback_route st p
    eff :: runCallbacks st' ps

/-! ## `lyrics_fetch.rs`: data model and serialization -/

/-- Display of an `f64`/`f32` value (modeled as an exact rational).
Rust prints a shortest decimal form; only determinism of the rendering
matters to the claims, so the rational rendering is used. -/
def ratDisplay (q : Rat) : String :=
  if q.den = 1 then toString q.num else toString q.num ++ "/" ++ toString q.den

/-- Deserialized body of a successful lrclib response (`LRCOkResponse`). -/
structure LRCOkResponse where
  id : Nat
  track_name : String
  artist_name : String
  album_name : String
  duration : Rat
  instrumental : Bool
  plain_lyrics : String
  synced_lyrics : String
deriving DecidableEq, Repr

/-- Metadata file contents written next to a cached lyrics file
(`LrcCacheMeta`). -/
structure LrcCacheMeta where
  spotify_id : Option String
  lrc_id : Nat
  track_name : String
  artist_name : String
  album_name : String
  duration_sec : Rat
  instrumental : Bool
deriving DecidableEq, Repr

/-- Fetcher errors (`LyricsFetcherErr`). -/
inductive LyricsFetcherErr where
  | ReqwestError (e : String)
  | NoTrack
deriving DecidableEq, Repr

/-- Cache read errors (`LyricsCacheCheckErr`). -/
inductive LyricsCacheCheckErr where
  | IoError (e : String)
  | NotInCache
  | Serde (e : String)
deriving DecidableEq, Repr

/-- Cache write errors (`LyricsCacheCreateErr`). -/
inductive LyricsCacheCreateErr where
  | IoError (e : String)
  | SerializeErr (e : String)
deriving DecidableEq, Repr

/-- The crate-root alias `SongLyrics` for the parser output. -/
abbrev SongLyrics := List LyricLine

/-- Request data derived from a currently-playing response
(`LyricsRequestInfo`). -/
structure LyricsRequestInfo where
  spotify_id : Option String
  duration_sec : Rat
  track_name : String
  artist_name : String
  album_name : String
deriving DecidableEq, Repr

/-- Model of `LyricsRequestInfo::from_spotify_response`: fails with
`NoTrack` unless the response is a track; the field `unwrap`s are safe
because `is_track` implies `item` is present (the `getD` defaults are
unreachable). -/
def LyricsRequestInfo.from_spotify_response (response : CurrentlyPlayingResponse) :
    Except LyricsFetcherErr LyricsRequestInfo :=
  if ¬ response.is_track then .error .NoTrack
  else .ok
    { spotify_id := some (response.get_spotify_id.getD "")
      duration_sec := response.get_duration_sec.getD 0
      track_name := response.get_track_title.getD ""
      artist_name := response.get_artist.getD ""
      album_name := response.get_album.getD "" }

/-- Model of `LyricsRequestInfo::get_track_identifier`:
`format!("{}-{}.{}", track_name, artist_name, duration_sec)`. -/
def LyricsRequestInfo.get_track_identifier (r : LyricsRequestInfo) : String :=
  r.track_name ++ "-" ++ r.artist_name ++ "." ++ ratDisplay r.duration_sec

/-- Digit string of a natural number. -/
def natChars (n : Nat) : List Char :=
  (Nat.repr n).toList

/-- Serialized form of one lyric line; a length-prefixed record.  This
models the `serde_json` rendering of a `LyricLine`: the exact JSON
syntax is irrelevant to every claim, what matters is that serialization
is injective, deserialization inverts it, and empty or truncated input
fails to deserialize. -/
def encLine (l : LyricLine) : List Char :=
  natChars l.time_ms ++ [';'] ++ natChars l.text.length ++ [';'] ++ l.text ++ ['\n']

/-- Model of `serde_json::to_string_pretty` on a `SongLyrics` value: a
header marker then one record per line. -/
def serializeLyrics (ls : SongLyrics) : List Char :=
  '#' :: (ls.map encLine).flatten

/-- Split a leading run of ASCII digits. -/
def splitDigits : List Char → List Char × List Char
  | [] => ([], [])
  | c :: cs =>
    if isAsciiDigit c then
      let (d, r) := splitDigits cs
      (c :: d, r)
    else ([], c :: cs)

/-- Fueled record parser for `deserializeLyrics`. -/
def deserializeAux : Nat → List Char → Option SongLyrics
  | _, [] => some []
  | 0, _ :: _ => none
  | fuel + 1, s =>
    let (ds, r1) := splitDigits s
    if ds.isEmpty then none
    else
      match r1 with
      | ';' :: r2 =>
        let (ls, r3) := splitDigits r2
        if ls.isEmpty then none
        else
          match r3 with
          | ';' :: r4 =>
            let len := digitsToNat ls 0
            let text := r4.take len
            if text.length = len then
              match r4.drop len with
              | '\n' :: r5 =>
                (deserializeAux fuel r5).map (fun rest => ⟨digitsToNat ds 0, text⟩ :: rest)
              | _ => none
            else none
          | _ => none
      | _ => none

/-- Model of `serde_json::from_reader` into `SongLyrics`: inverts
`serializeLyrics`; in particular empty input fails, as JSON
deserialization of an empty document does. -/
def deserializeLyrics (s : List Char) : Option SongLyrics :=
  match s with
  | '#' :: rest => deserializeAux rest.length rest
  | _ => none

/-- Rendering of the metadata file; only written, never re-read, by the
code under verification. -/
def serializeMeta (m : LrcCacheMeta) : List Char :=
  (m.spotify_id.getD "").toList ++ [';'] ++ natChars m.lrc_id ++ [';']
    ++ m.track_name.toList ++ [';'] ++ m.artist_name.toList ++ [';']
    ++ m.album_name.toList ++ [';'] ++ (ratDisplay m.duration_sec).toList ++ [';']
    ++ (if m.instrumental then ['1'] else ['0'])

/-! ## `lyrics_fetch.rs`: the cache policy over a file-store model -/

/-- File store: association from path to contents, most recent write
first.  Directories are not tracked (`create_dir_all` always succeeds
and paths are flat strings). -/
abbrev FileSystem := List (String × List Char)

/-- Read a file's current contents. -/
def fsRead (fs : FileSystem) (p : String) : Option (List Char) :=
  (fs.find? (fun e => e.1 == p)).map (fun e => e.2)

/-- Record new contents for a path. -/
def fsWrite (fs : FileSystem) (p : String) (c : List Char) : FileSystem :=
  (p, c) :: fs

/-- Model of `fs::exists`. -/
def fsExists (fs : FileSystem) (p : String) : Bool :=
  (fsRead fs p).isSome

/-- Model of `Path::join` on the flat path strings. -/
def pathJoin (a b : String) : String :=
  a ++ "/" ++ b

/-- Model of `fs::File::create`: creates the file, or truncates it to
length zero when it already exists (and opens it write-only). -/
def fileCreate (fs : FileSystem) (p : String) : FileSystem :=
  fsWrite fs p []

/-- Model of `LyricsFetcher::check_cache`.  Note the source opens the
cached lyrics file with `fs::File::create` (which truncates it and
yields a write-only handle) and then hands that handle to
`serde_json::from_reader`; the model truncates the file and
deserializes its now-empty contents. -/
def check_cache (settings : Settings) (fs : FileSystem) (req : LyricsRequestInfo) :
    Except LyricsCacheCheckErr SongLyrics × FileSystem :=
  let track_folder := pathJoin settings.cache_folder req.get_track_identifier
  let lrc_file_path := pathJoin track_folder "lyrics.lrc"
  if ¬ fsExists fs lrc_file_path then (.error .NotInCache, fs)
  else
    let fs1 := fileCreate fs lrc_file_path
    match deserializeLyrics ((fsRead fs1 lrc_file_path).getD []) with
    | some lyrics => (.ok lyrics, fs1)
    | none => (.error (.Serde "EOF while parsing a value"), fs1)

/-- Model of `LyricsFetcher::store_in_cache`: build the metadata
record, create and write the `.meta` file, then create and write the
`lyrics.lrc` file with the serialized timeline. -/
def store_in_cache (settings : Settings) (fs : FileSystem) (req : LyricsRequestInfo)
    (resp : LRCOkResponse) (song_lyrics : SongLyrics) :
    Except LyricsCacheCreateErr Unit × FileSystem :=
  let track_folder := pathJoin settings.cache_folder req.get_track_identifier
  let meta : LrcCacheMeta :=
    { spotify_id := req.spotify_id
      lrc_id := resp.id
      track_name := resp.track_name
      artist_name := resp.artist_name
      album_name := resp.album_name
      duration_sec := resp.duration
      instrumental := resp.instrumental }
  let fs1 := fileCreate fs (pathJoin track_folder ".meta")
  let fs2 := fsWrite fs1 (pathJoin track_folder ".meta") (serializeMeta meta)
  let fs3 := fileCreate fs2 (pathJoin track_folder "lyrics.lrc")
  let fs4 := fsWrite fs3 (pathJoin track_folder "lyrics.lrc") (serializeLyrics song_lyrics)
  (.ok (), fs4)

/-! ## Crate-root message types and `runtime.rs` -/

/-- Result wrapper owned by a fetched timeline (`SongWithLyrics`). -/
structure SongWithLyrics where
  lyrics : SongLyrics
  duration_sec : Rat
  track_name : String
  artist_name : String
  album_name : String
deriving DecidableEq, Repr

/-- Model of `SongWithLyrics::new`. -/
def SongWithLyrics.new (lyrics : SongLyrics) (req : LyricsRequestInfo) : SongWithLyrics :=
  { lyrics := lyrics
    duration_sec := req.duration_sec
    track_name := req.track_name
    artist_name := req.artist_name
    album_name := req.album_name }

/-- Intents sent from the UI to the runtime (`MessageToRT`; declared in
the crate root, variants determined by its uses in `runtime.rs` and
`overlay.rs`). -/
inductive MessageToRT where
  | Authenticate
  | GetCurrentTrack
  | GetLyrics (request : LyricsRequestInfo)
deriving DecidableEq, Repr

/-- Events sent from the runtime to the UI (`MessageToUI`; declared in
the crate root, variants determined by its uses in `runtime.rs`,
`lyrics_fetch.rs` and `overlay.rs`). -/
inductive MessageToUI where
  | Authenticated
  | CurrentlyPlaying (r : CurrentlyPlayingResponse)
  | GotLyrics (s : SongWithLyrics)
  | DisplayError (msg : String)
deriving DecidableEq, Repr

/-- Runtime error enum (`RuntimeError` in `runtime.rs`). -/
inductive RuntimeError where
  | AuthenticationFailed (e : SpotifyClientAuthError)
  | GetFailed (e : LyricsFetcherErr)
deriving DecidableEq, Repr

/-- Debug rendering of `SpotifyClientAuthError` (derive-style). -/
def debugAuthError : SpotifyClientAuthError → String
  | .Unknown => "Unknown"
  | .MissingClientId => "MissingClientId"
  | .MissingClientSecret => "MissingClientSecret"
  | .NotAuthenticated => "NotAuthenticated"
  | .MissingCodeAuthError => "MissingCodeAuthError"
  | .MissingStateAuthError => "MissingStateAuthError"
  | .CrsfMismatch => "CrsfMismatch"
  | .UrlParse e => "UrlParse(" ++ e ++ ")"
  | .IoError e => "IoError(" ++ e ++ ")"
  | .TokenRequest e => "TokenRequest(" ++ e ++ ")"
  | .ReqwestError e => "ReqwestError(" ++ e ++ ")"

/-- Debug rendering of `LyricsFetcherErr` (derive-style). -/
def debugFetcherErr : LyricsFetcherErr → String
  | .ReqwestError e => "ReqwestError(" ++ e ++ ")"
  | .NoTrack => "NoTrack()"

/-- Debug rendering of `RuntimeError`, as used by
`format!("{:?}", x)` in the runtime loop. -/
def debugRuntimeError : RuntimeError → String
  | .AuthenticationFailed e => "AuthenticationFailed(" ++ debugAuthError e ++ ")"
  | .GetFailed e => "GetFailed(" ++ debugFetcherErr e ++ ")"

/-- Model of `LyricsFetcher::get_lyrics`.  `netResult` is the outcome
of the lrclib request.  With caching enabled, a cache hit returns the
cached timeline; any cache-read error falls through to the network
path (a non-`NotInCache` error is merely logged).  A network failure
becomes an `Ok(DisplayError(...))` result; otherwise the body is
parsed, stored in the cache best-effort, and returned.  Every path
returns `Ok`. -/
def get_lyrics (settings : Settings) (fs : FileSystem) (req : LyricsRequestInfo)
    (netResult : Except String LRCOkResponse) :
    Except RuntimeError MessageToUI × FileSystem :=
  let fetchAndStore : FileSystem → Except RuntimeError MessageToUI × FileSystem :=
    fun fs0 =>
      match netResult with
      | .error err => (.ok (.DisplayError ("Failed to fetch lyrics: " ++ err)), fs0)
      | .ok lrc_response =>
        let parsed := parse_lrc lrc_response.synced_lyrics.toList false
        let (_, fs1) := store_in_cache settings fs0 req lrc_response parsed
        (.ok (.GotLyrics (SongWithLyrics.new parsed req)), fs1)
  if settings.caching_enabled then
    match check_cache settings fs req with
    | (.ok lyrics, fs1) => (.ok (.GotLyrics (SongWithLyrics.new lyrics req)), fs1)
    | (.error _, fs1) => fetchAndStore fs1
  else fetchAndStore fs

/-- Model of the `authenticate` helper in `runtime.rs`: success maps to
the `Authenticated` event, failure to `RuntimeError::AuthenticationFailed`. -/
def rt_authenticate (authResult : Except SpotifyClientAuthError Unit) :
    RustOutcome RuntimeError MessageToUI :=
  match authResult with
  | .ok _ => .ok .Authenticated
  | .error e => .err (.AuthenticationFailed e)

/-- Model of the `get_current_track` helper in `runtime.rs`: the source
calls `.unwrap()` on the client result, so a client error panics
instead of producing a `RuntimeError`. -/
def rt_get_current_track (trackResult : Except SpotifyClientError CurrentlyPlayingResponse) :
    RustOutcome RuntimeError MessageToUI :=
  match trackResult with
  | .ok res => .ok (.CurrentlyPlaying res)
  | .error _ => .panicked "called `Result::unwrap()` on an `Err` value"

/-- Per-iteration environment of the runtime loop: outcomes of the
underlying operations the current intent may invoke. -/
structure RTEnv where
  authResult : Except SpotifyClientAuthError Unit
  trackResult : Except SpotifyClientError CurrentlyPlayingResponse
  lyricsNet : Except String LRCOkResponse

/-- Outcome of one runtime-loop iteration. -/
inductive StepOutcome where
  | sent (m : MessageToUI)
  | panicked (msg : String)
deriving DecidableEq, Repr

/-- One iteration of the `start_runtime` loop body: dispatch on the
intent, then send either the success event or
`DisplayError(format!("{:?}", x))` on the outbound channel (the send's
own `unwrap` is not modeled; the channel stays open). -/
def runtimeStep (settings : Settings) (env : RTEnv) (fs : FileSystem) :
    MessageToRT → StepOutcome × FileSystem
  | msg =>
    let (res, fs') :=
      match msg with
      | .Authenticate => (rt_authenticate env.authResult, fs)
      | .GetCurrentTrack => (rt_get_current_track env.trackResult, fs)
      | .GetLyrics request =>
        let (r, fs1) := get_lyrics settings fs request env.lyricsNet
        (match r with
         | .ok m => RustOutcome.ok m
         | .error e => RustOutcome.err e, fs1)
    match res with
    | .ok message => (.sent message, fs')
    | .err x => (.sent (.DisplayError (debugRuntimeError x)), fs')
    | .panicked m => (.panicked m, fs')

/-- Model of `start_runtime`: process intents in arrival order; each
iteration emits one outbound event, unless it panics, which ends the
loop with no event for that intent and none after it.  Returns the
emitted events, the final file store, and whether the loop panicked. -/
def start_runtime (settings : Settings) (fs : FileSystem) :
    List (MessageToRT × RTEnv) → List MessageToUI × FileSystem × Bool
  | [] => ([], fs, false)
  | (msg, env) :: rest =>
    match runtimeStep settings env fs msg with
    | (.sent m, fs') =>
      let (out, fs2, p) := start_runtime settings fs' rest
      (m :: out, fs2, p)
    | (.panicked _, fs') => ([], fs', true)

/-! ## Lemmas about the stable sort -/

theorem mem_insertByKey {a x : LyricLine} :
    ∀ {l : List LyricLine}, a ∈ insertByKey x l → a = x ∨ a ∈ l := by
  intro l
  induction l with
  | nil => intro h; simp [insertByKey] at h; exact Or.inl h
  | cons y ys ih =>
    intro h
    by_cases hc : y.time_ms < x.time_ms
    · rw [insertByKey, if_pos hc] at h
      rcases List.mem_cons.mp h with rfl | h2
      · exact Or.inr (List.mem_cons_self _ _)
      · rcases ih h2 with h3 | h3
        · exact Or.inl h3
        · exact Or.inr (List.mem_cons_of_mem _ h3)
    · rw [insertByKey, if_neg hc] at h
      rcases List.mem_cons.mp h with rfl | h2
      · exact Or.inl rfl
      · exact Or.inr h2

theorem insertByKey_pairwise {x : LyricLine} {l : List LyricLine}
    (h : List.Pairwise (fun a b => a.time_ms ≤ b.time_ms) l) :
    List.Pairwise (fun a b => a.time_ms ≤ b.time_ms) (insertByKey x l) := by
  induction l with
  | nil => simp [insertByKey]
  | cons y ys ih =>
    rw [List.pairwise_cons] at h
    by_cases hc : y.time_ms < x.time_ms
    · rw [insertByKey, if_pos hc, List.pairwise_cons]
      refine ⟨?_, ih h.2⟩
      intro a ha
      rcases mem_insertByKey ha with rfl | ha2
      · omega
      · exact h.1 a ha2
    · rw [insertByKey, if_neg hc, List.pairwise_cons]
      constructor
      · intro a ha
        rcases List.mem_cons.mp ha with rfl | ha2
        · omega
        · have := h.1 a ha2; omega
      · exact List.Pairwise.cons h.1 h.2

theorem sortByKey_pairwise :
    ∀ l : List LyricLine, List.Pairwise (fun a b => a.time_ms ≤ b.time_ms) (sortByKey l)
  | [] => List.Pairwise.nil
  | _ :: xs => insertByKey_pairwise (sortByKey_pairwise xs)

theorem insertByKey_filter (x : LyricLine) (k : Nat) :
    ∀ l : List LyricLine,
      (insertByKey x l).filter (fun a => a.time_ms == k) =
        if x.time_ms == k then x :: l.filter (fun a => a.time_ms == k)
        else l.filter (fun a => a.time_ms == k) := by
  intro l
  induction l with
  | nil =>
    by_cases hx : x.time_ms = k
    · simp [insertByKey, List.filter_cons, hx]
    · simp [insertByKey, List.filter_cons, hx]
  | cons y ys ih =>
    by_cases hc : y.time_ms < x.time_ms
    · rw [insertByKey, if_pos hc]
      by_cases hx : x.time_ms = k
      · have hy : ¬ (y.time_ms = k) := by omega
        simp only [List.filter_cons, beq_iff_eq, hx, hy, if_true, if_false] at ih ⊢
        simp only [ih, if_pos rfl]
      · by_cases hy : y.time_ms = k
        · simp only [List.filter_cons, beq_iff_eq, hx, hy, if_false] at ih ⊢
          simp [ih, hx]
        · simp only [List.filter_cons, beq_iff_eq, hx, hy, if_false] at ih ⊢
          simp [ih, hx, hy]
    · rw [insertByKey, if_neg hc]
      by_cases hx : x.time_ms = k
      · simp [List.filter_cons, beq_iff_eq, hx]
      · simp [List.filter_cons, beq_iff_eq, hx]

theorem sortByKey_filter (k : Nat) :
    ∀ l : List LyricLine,
      (sortByKey l).filter (fun a => a.time_ms == k) = l.filter (fun a => a.time_ms == k) := by
  intro l
  induction l with
  | nil => rfl
  | cons x xs ih =>
    rw [sortByKey, insertByKey_filter]
    by_cases hx : x.time_ms = k
    · simp [List.filter_cons, beq_iff_eq, hx, ih]
    · simp [List.filter_cons, beq_iff_eq, hx, ih]

/-! ## Lemmas about the cursor scan -/

theorem findAux_all_le {e : Nat} :
    ∀ (l : List LyricLine) (i : Nat) (pos : LyricPosition),
      (∀ x ∈ l, x.time_ms ≤ e) → findAux e l i pos = LyricPosition.AfterEnd := by
  intro l
  induction l with
  | nil => intro i pos _; rfl
  | cons y ys ih =>
    intro i pos h
    rw [findAux, if_pos (h y (List.mem_cons_self _ _))]
    exact ih (i + 1) _ (fun x hx => h x (List.mem_cons_of_mem _ hx))

theorem getLast?_mem : ∀ {l : List LyricLine} {a : LyricLine}, l.getLast? = some a → a ∈ l := by
  intro l
  induction l with
  | nil => intro a h; simp at h
  | cons y ys ih =>
    intro a h
    cases ys with
    | nil =>
      simp [List.getLast?] at h
      exact h ▸ List.mem_cons_self _ _
    | cons z zs =>
      rw [List.getLast?_cons_cons] at h
      exact List.mem_cons_of_mem _ (ih h)

theorem sorted_le_getLast :
    ∀ {l : List LyricLine} {last : LyricLine},
      List.Pairwise (fun a b => a.time_ms ≤ b.time_ms) l →
      l.getLast? = some last → ∀ x ∈ l, x.time_ms ≤ last.time_ms := by
  intro l
  induction l with
  | nil => intro last _ _ x hx; simp at hx
  | cons y ys ih =>
    intro last hs hl x hx
    rw [List.pairwise_cons] at hs
    cases ys with
    | nil =>
      simp [List.getLast?] at hl
      rcases List.mem_cons.mp hx with rfl | hx2
      · rw [hl]
      · simp at hx2
    | cons z zs =>
      rw [List.getLast?_cons_cons] at hl
      have hlast_mem : last ∈ z :: zs := getLast?_mem hl
      rcases List.mem_cons.mp hx with rfl | hx2
      · exact hs.1 last hlast_mem
      · exact ih hs.2 hl x hx2

theorem findAux_interior {e : Nat} :
    ∀ (l : List LyricLine) (j : Nat) (hj1 : j + 1 < l.length) (i : Nat) (pos : LyricPosition),
      List.Pairwise (fun a b => a.time_ms ≤ b.time_ms) l →
      (l.get ⟨j, Nat.lt_of_succ_lt hj1⟩).time_ms ≤ e →
      e < (l.get ⟨j + 1, hj1⟩).time_ms →
      findAux e l i pos = LyricPosition.Line (i + j) := by
  intro l
  induction l with
  | nil => intro j hj1; simp at hj1
  | cons y ys ih =>
    intro j hj1 i pos hs hle hgt
    rw [List.pairwise_cons] at hs
    cases j with
    | zero =>
      simp only [List.get] at hle hgt
      rw [findAux, if_pos hle]
      cases ys with
      | nil => simp at hj1
      | cons z zs =>
        simp only [List.get] at hgt
        rw [findAux, if_neg (by omega)]
        rfl
    | succ j' =>
      have hj1' : j' + 1 < ys.length := by
        simp only [List.length_cons] at hj1; omega
      simp only [List.get] at hle hgt
      have hy : y.time_ms ≤ e := by
        have hmem : ys.get ⟨j', Nat.lt_of_succ_lt hj1'⟩ ∈ ys := List.get_mem ys _ _
        have := hs.1 _ hmem
        omega
      rw [findAux, if_pos hy]
      have := ih j' hj1' (i + 1) (LyricPosition.Line i) hs.2 hle hgt
      rw [this]
      have harith : i + 1 + j' = i + (j' + 1) := by omega
      rw [harith]

/-! ## Lemmas about the tag loop -/

theorem splitAtFirst_eq_of_not_mem {sep : Char} :
    ∀ {tag : List Char}, sep ∉ tag →
      ∀ rest : List Char, splitAtFirst sep (tag ++ sep :: rest) = some (tag, rest) := by
  intro tag
  induction tag with
  | nil => intro _ rest; simp [splitAtFirst]
  | cons c cs ih =>
    intro h rest
    have hc : ¬ c = sep := fun hh => h (hh ▸ List.mem_cons_self c cs)
    rw [List.cons_append, splitAtFirst, if_neg hc,
      ih (fun hm => h (List.mem_cons_of_mem _ hm)) rest]
    rfl

theorem processLineAux_succ (fuel : Nat) (strip : Bool) (body tag after : List Char)
    (hsp : splitAtFirst ']' body = some (tag, after)) :
    processLineAux (fuel + 1) strip ('[' :: body) =
      match parse_time_tag tag with
      | some ms =>
        if strip && (rustTrim after).isEmpty then none
        else some ⟨ms, rustTrim after⟩
      | none => processLineAux fuel strip (rustTrim after) := by
  rw [processLineAux, if_pos rfl, hsp]

theorem processLineAux_fuel_sufficient :
    ∀ (fuel : Nat) (strip : Bool) (rest : List Char), rest.length < fuel →
      processLineAux fuel strip rest = processLine strip rest := by
  intro fuel
  induction fuel using Nat.strong_induction_on with
  | _ fuel ih =>
    intro strip rest hlt
    match fuel, rest with
    | f + 1, [] => rfl
    | f + 1, c :: body =>
      by_cases hc : c = '['
      · subst hc
        cases hsp : splitAtFirst ']' body with
        | none =>
          rw [processLineAux, if_pos rfl, hsp, processLine, List.length_cons,
            processLineAux, if_pos rfl, hsp]
        | some p =>
          rw [processLineAux_succ f strip body p.1 p.2 (by rw [hsp]),
            processLine, List.length_cons,
            processLineAux_succ (body.length + 1) strip body p.1 p.2 (by rw [hsp])]
          cases hpt : parse_time_tag p.1 with
          | some ms => rfl
          | none =>
            have h1 := splitAtFirst_length (a := p.1) (b := p.2) (by rw [hsp])
            have h2 := rustTrim_length p.2
            simp only [List.length_cons] at hlt
            rw [ih f (by omega) strip (rustTrim p.2) (by omega),
              ih (body.length + 1) (by omega) strip (rustTrim p.2) (by omega)]
      · rw [processLineAux, if_neg hc, processLine, List.length_cons,
          processLineAux, if_neg hc]

theorem processLine_tag_step {tag : List Char} (hclose : (']' : Char) ∉ tag)
    (strip : Bool) (rest : List Char) :
    processLine strip ('[' :: (tag ++ ']' :: rest)) =
      match parse_time_tag tag with
      | some ms =>
        if strip && (rustTrim rest).isEmpty then none
        else some ⟨ms, rustTrim rest⟩
      | none => processLine strip (rustTrim rest) := by
  rw [processLine, List.length_cons,
    processLineAux_succ _ strip _ tag rest (splitAtFirst_eq_of_not_mem hclose rest)]
  cases hpt : parse_time_tag tag with
  | some ms => rfl
  | none =>
    exact processLineAux_fuel_sufficient _ strip (rustTrim rest)
      (by
        have h2 := rustTrim_length rest
        simp only [List.length_append, List.length_cons]
        omega)

/-! ## Concrete sample data for closed evaluations -/

/-- Sample settings with caching enabled. -/
def sampleSettings : Settings :=
  { host := "127.0.0.1", port := 8123, client_id := "id", client_secret := "secret",
    log_level := "trace", opacity := 1/5, font_size := 10, caching_enabled := true,
    cache_folder := "cache" }

/-- Sample lyrics request. -/
def sampleReq : LyricsRequestInfo :=
  { spotify_id := some "sid", duration_sec := 285, track_name := "Song", artist_name := "Band",
    album_name := "Album" }

/-- Sample parsed timeline. -/
def sampleLyrics : SongLyrics :=
  [⟨18920, "first line".toList⟩, ⟨22590, "second line".toList⟩]

/-- Sample lrclib response. -/
def sampleResp : LRCOkResponse :=
  { id := 7, track_name := "Song", artist_name := "Band", album_name := "Album",
    duration := 285, instrumental := false, plain_lyrics := "",
    synced_lyrics := "[00:18.92] first line" }

/-- Loop environment for a poll answered with HTTP 204
(`NoContentResponse`). -/
def sampleEnv204 : RTEnv :=
  { authResult := .ok (), trackResult := .error .NoContentResponse, lyricsNet := .error "net" }

/-- Loop environment in which every operation succeeds. -/
def sampleEnvOk : RTEnv :=
  { authResult := .ok (),
    trackResult := .ok { currently_playing_type := "track", item := none, is_playing := true,
                         progress_ms := 0 },
    lyricsNet := .ok sampleResp }

/-- Loop environment in which authentication fails. -/
def sampleEnvAuthFail : RTEnv :=
  { authResult := .error .MissingClientSecret,
    trackResult := .error .NoContentResponse, lyricsNet := .error "net" }

/-! ## Claims -/

/-- C1.  The spec requires the coordinator to convert every per-request
failure into a `DisplayError` event and keep looping, never panicking;
in particular an HTTP-204 poll (`NoContentResponse`) must be surfaced
without crashing.  The code violates this: the `GetCurrentTrack` helper
in `runtime.rs` calls `.unwrap()` on the client result, so the poll
failure panics the loop — no `DisplayError` is emitted and the
remaining intents are never processed.  (An `Authenticate` failure, by
contrast, is converted to `DisplayError` as specified.) -/
theorem c1_poll_failure_panics_loop :
    (runtimeStep sampleSettings sampleEnv204 [] MessageToRT.GetCurrentTrack).1
      = StepOutcome.panicked "called `Result::unwrap()` on an `Err` value"
  ∧ start_runtime sampleSettings []
      [(MessageToRT.GetCurrentTrack, sampleEnv204), (MessageToRT.Authenticate, sampleEnvOk)]
      = ([], [], true)
  ∧ (runtimeStep sampleSettings sampleEnvAuthFail [] MessageToRT.Authenticate).1
      = StepOutcome.sent (MessageToUI.DisplayError "AuthenticationFailed(MissingClientSecret)") :=
  ⟨rfl, rfl, rfl⟩

/-- C2.  The claimed cache round-trip fails on the code: after
`store_in_cache` writes the entry for `sampleReq` (second conjunct:
the serialized timeline is on disk, and the first conjunct shows it
deserializes back to exactly the stored timeline), `check_cache` for
the same key opens the lyrics file with `fs::File::create`, truncating
it, and then fails to deserialize the now-empty file: it returns a
`Serde` error instead of the stored timeline. -/
theorem c2_cache_roundtrip_fails :
    deserializeLyrics (serializeLyrics sampleLyrics) = some sampleLyrics
  ∧ fsRead (store_in_cache sampleSettings [] sampleReq sampleResp sampleLyrics).2
      (pathJoin (pathJoin sampleSettings.cache_folder sampleReq.get_track_identifier)
        "lyrics.lrc")
      = some (serializeLyrics sampleLyrics)
  ∧ (check_cache sampleSettings
        (store_in_cache sampleSettings [] sampleReq sampleResp sampleLyrics).2 sampleReq).1
      = Except.error (LyricsCacheCheckErr.Serde "EOF while parsing a value") :=
  ⟨rfl, rfl, rfl⟩

/-- C3 counterexample.  The claim says a tag whose fractional part
fails to parse is treated as non-timestamp metadata, contributing no
timestamp and emitting no line.  In the code the fractional parse uses
`unwrap_or(0)`, so the tag `00:05.xx` still parses as a timestamp
(5000 ms) and the line is emitted. -/
theorem c3_counterexample :
    parse_time_tag "00:05.xx".toList = some 5000
  ∧ parse_lrc "[00:05.xx]hello".toList false
      = [{ time_ms := 5000, text := "hello".toList }] :=
  ⟨rfl, rfl⟩

/-- C3 (amended).  For a bracketed leading tag whose minutes or seconds
field is malformed, the whole tag is non-timestamp metadata: it
contributes no timestamp (`parse_time_tag` is `none`) and no line is
emitted for it — processing the line continues with the trimmed
remainder, so a line is emitted only if some later leading tag parses
as a timestamp, and is skipped otherwise.  (A malformed fractional
part, by contrast, defaults to zero centiseconds; see the
counterexample.) -/
theorem c3_malformed_min_sec_is_metadata (tag : List Char)
    (hclose : (']' : Char) ∉ tag)
    (hmal : ∀ p0 p1, splitAtFirst ':' tag = some (p0, p1) →
      parseU64 (rustTrim p0) = none ∨ parseU64 (rustTrim (secSplit p1).1) = none) :
    parse_time_tag tag = none
  ∧ ∀ (strip : Bool) (rest : List Char),
      processLine strip ('[' :: (tag ++ ']' :: rest)) = processLine strip (rustTrim rest) := by
  have hnone : parse_time_tag tag = none := by
    cases hsp : splitAtFirst ':' tag with
    | none => simp only [parse_time_tag, hsp]
    | some p =>
      have hp : splitAtFirst ':' tag = some (p.1, p.2) := by rw [hsp]
      rcases hmal p.1 p.2 hp with hmin | hsec
      · simp only [parse_time_tag, hsp, hmin]
      · cases hmin : parseU64 (rustTrim p.1) with
        | none => simp only [parse_time_tag, hsp, hmin]
        | some m => simp only [parse_time_tag, hsp, hmin, hsec]
  refine ⟨hnone, ?_⟩
  intro strip rest
  rw [processLine_tag_step hclose strip rest, hnone]

/-- C3 witness: the tag `0x:05` has malformed minutes, so it is
metadata; a later timestamp tag on the same line still yields the line. -/
theorem c3_witness :
    parse_time_tag "0x:05".toList = none
  ∧ processLine false ('[' :: ("0x:05".toList ++ ']' :: "[00:06]hi".toList))
      = processLine false (rustTrim "[00:06]hi".toList) := by
  have h := c3_malformed_min_sec_is_metadata "0x:05".toList (by decide)
    (by
      intro p0 p1 hsp
      rw [show splitAtFirst ':' "0x:05".toList = some ("0x".toList, "05".toList) from by decide]
        at hsp
      injection hsp with hsp
      rw [Prod.mk.injEq] at hsp
      rw [← hsp.1]
      exact Or.inl (by decide))
  exact ⟨h.1, h.2 false "[00:06]hi".toList⟩

/-- C5.  A tag whose minutes, seconds and fraction fields all parse as
non-negative integers yields the offset
`minutes*60000 + seconds*1000 + centiseconds*10` (first conjunct;
`hfit` is the 64-bit representability bound of the `u64` arithmetic);
when the seconds part contains neither `'.'` nor `':'`, the fraction
field defaults to the literal `"0"`, i.e. zero centiseconds (second
conjunct); and `parse` emits, for a line made of such a tag and a
remainder, a line with exactly that offset (third conjunct). -/
theorem c5_timestamp_offset (tag p0 p1 ss cs : List Char) (m s c : Nat)
    (hsplit : splitAtFirst ':' tag = some (p0, p1))
    (hsec : secSplit p1 = (ss, cs))
    (hm : parseU64 (rustTrim p0) = some m)
    (hs : parseU64 (rustTrim ss) = some s)
    (hc : parseU64 (rustTrim cs) = some c)
    (hfit : m * 60000 + s * 1000 + c * 10 < U64_MOD) :
    parse_time_tag tag = some (m * 60000 + s * 1000 + c * 10)
  ∧ (splitAtFirst '.' p1 = none → splitAtFirst ':' p1 = none → cs = ['0'])
  ∧ ∀ rest : List Char, (']' : Char) ∉ tag →
      processLine false ('[' :: (tag ++ ']' :: rest)) =
        some ⟨m * 60000 + s * 1000 + c * 10, rustTrim rest⟩ := by
  have hval : parse_time_tag tag = some (m * 60000 + s * 1000 + c * 10) := by
    simp only [parse_time_tag, hsplit, hsec, hm, hs, hc, Option.getD_some]
    rw [Nat.mod_eq_of_lt hfit]
  refine ⟨hval, ?_, ?_⟩
  · intro hdot hcolon
    rw [secSplit, hdot, hcolon] at hsec
    injection hsec with _ h2
    exact h2.symm
  · intro rest hclose
    rw [processLine_tag_step hclose false rest, hval]
    rfl

/-- C5 witness: the tag `01:05.04` yields 65040 ms, and the mm:ss tag
`01:05` defaults its fraction to zero, yielding 65000 ms. -/
theorem c5_witness :
    parse_time_tag "01:05.04".toList = some 65040
  ∧ parse_time_tag "01:05".toList = some 65000 := by
  constructor
  · have h := (c5_timestamp_offset "01:05.04".toList "01".toList "05.04".toList
      "05".toList "04".toList 1 5 4 (by decide) (by decide) (by decide) (by decide)
      (by decide) (by decide)).1
    simpa using h
  · have h := (c5_timestamp_offset "01:05".toList "01".toList "05".toList
      "05".toList "0".toList 1 5 0 (by decide) (by decide) (by decide) (by decide)
      (by decide) (by decide)).1
    simpa using h

/-- C4.  For a timeline sorted ascending by offset, `find_current_index`
returns `BeforeStart` when the timeline is empty or the elapsed time is
strictly below the first offset; `AfterEnd` when the timeline is
non-empty and the elapsed time is at or past the last offset; and
`Line i` when `timeline[i].offset ≤ elapsed < timeline[i+1].offset`. -/
theorem c4_locate_trichotomy (tl : List LyricLine) (e : Nat)
    (hs : List.Pairwise (fun a b => a.time_ms ≤ b.time_ms) tl) :
    (tl = [] → find_current_index tl e = LyricPosition.BeforeStart)
  ∧ (∀ h0 t, tl = h0 :: t → e < h0.time_ms →
      find_current_index tl e = LyricPosition.BeforeStart)
  ∧ (∀ last, tl.getLast? = some last → last.time_ms ≤ e →
      find_current_index tl e = LyricPosition.AfterEnd)
  ∧ (∀ i (hi : i + 1 < tl.length),
      (tl.get ⟨i, Nat.lt_of_succ_lt hi⟩).time_ms ≤ e →
      e < (tl.get ⟨i + 1, hi⟩).time_ms →
      find_current_index tl e = LyricPosition.Line i) := by
  refine ⟨?_, ?_, ?_, ?_⟩
  · intro h; subst h; rfl
  · intro h0 t ht hlt
    subst ht
    rw [find_current_index, if_neg (by simp), findAux, if_neg (by omega)]
  · intro last hl hle
    have hne : tl.isEmpty = false := by
      cases tl with
      | nil => simp at hl
      | cons y ys => rfl
    rw [find_current_index, hne, if_neg (by simp)]
    exact findAux_all_le tl 0 _
      (fun x hx => Nat.le_trans (sorted_le_getLast hs hl x hx) hle)
  · intro i hi h1 h2
    have hne : tl.isEmpty = false := by
      cases tl with
      | nil => simp at hi
      | cons y ys => rfl
    rw [find_current_index, hne, if_neg (by simp)]
    rw [findAux_interior tl i hi 0 LyricPosition.BeforeStart hs h1 h2, Nat.zero_add]

/-- C4 witness: concrete evaluations of all three cases on the sorted
timeline `[10 ms, 20 ms]` and on the empty timeline. -/
theorem c4_witness :
    find_current_index [⟨10, []⟩, ⟨20, []⟩] 15 = LyricPosition.Line 0
  ∧ find_current_index [⟨10, []⟩, ⟨20, []⟩] 3 = LyricPosition.BeforeStart
  ∧ find_current_index [⟨10, []⟩, ⟨20, []⟩] 20 = LyricPosition.AfterEnd
  ∧ find_current_index [] 5 = LyricPosition.BeforeStart := by
  have hsort : List.Pairwise (fun a b : LyricLine => a.time_ms ≤ b.time_ms)
      [⟨10, []⟩, ⟨20, []⟩] := by
    refine List.Pairwise.cons ?_ (List.Pairwise.cons ?_ List.Pairwise.nil)
    · intro b hb
      rcases List.mem_cons.mp hb with rfl | hb2
      · exact by decide
      · simp at hb2
    · intro b hb; simp at hb
  refine ⟨?_, ?_, ?_, ?_⟩
  · exact (c4_locate_trichotomy [⟨10, []⟩, ⟨20, []⟩] 15 hsort).2.2.2 0 (by decide)
      (by decide) (by decide)
  · exact (c4_locate_trichotomy [⟨10, []⟩, ⟨20, []⟩] 3 hsort).2.1 ⟨10, []⟩ [⟨20, []⟩] rfl
      (by decide)
  · exact (c4_locate_trichotomy [⟨10, []⟩, ⟨20, []⟩] 20 hsort).2.2.1 ⟨20, []⟩ (by rfl)
      (by decide)
  · exact (c4_locate_trichotomy [] 5 List.Pairwise.nil).1 rfl

/-- C9.  The output of `parse` is sorted ascending by offset, for every
input and either value of `strip_empty_lines`; and it is stable: for
every offset `k`, the lines with offset `k` appear in exactly the order
in which they were collected from the input (`collectLines` is the
encounter order). -/
theorem c9_parse_sorted_and_stable (content : List Char) (strip : Bool) :
    List.Pairwise (fun a b => a.time_ms ≤ b.time_ms) (parse_lrc content strip)
  ∧ ∀ k : Nat, (parse_lrc content strip).filter (fun a => a.time_ms == k)
      = (collectLines content strip).filter (fun a => a.time_ms == k) :=
  ⟨sortByKey_pairwise _, fun k => sortByKey_filter k _⟩

theorem runCallbacks_drained (ps : List (List (String × String))) :
    runCallbacks { tx_content := none, tx_shutdown := none } ps
      = ps.map (fun _ =>
          { delivered := none, shutdown_sent := false, response := confirmationHtml }) := by
  induction ps with
  | nil => rfl
  | cons p ps ih =>
    have h : runCallbacks { tx_content := none, tx_shutdown := none } (p :: ps)
        = { delivered := none, shutdown_sent := false, response := confirmationHtml }
            :: runCallbacks { tx_content := none, tx_shutdown := none } ps := rfl
    rw [h, ih, List.map]

/-- C6.  Within one `authenticate` call, the first request to
`/callback` delivers its `(code, state)` pair on the one-shot channel
and fires the shutdown one-shot; every later request delivers nothing
and fires nothing; and every request, first or later, receives the
static confirmation page. -/
theorem c6_callback_delivers_at_most_once (p : List (String × String))
    (ps : List (List (String × String))) :
    runCallbacks initialChannels (p :: ps)
      = { delivered := some (lookupParam p "code", lookupParam p "state"),
          shutdown_sent := true, response := confirmationHtml }
        :: ps.map (fun _ =>
            { delivered := none, shutdown_sent := false, response := confirmationHtml }) := by
  have h : runCallbacks initialChannels (p :: ps)
      = { delivered := some (lookupParam p "code", lookupParam p "state"),
          shutdown_sent := true, response := confirmationHtml }
        :: runCallbacks { tx_content := none, tx_shutdown := none } ps := rfl
  rw [h, runCallbacks_drained]

/-- Sample authentication environment in which every external step
succeeds. -/
def sampleAuthEnv : AuthEnv :=
  { pkce_verifier := "ver", pkce_challenge := "chal", csrf_token := "csrf",
    redirect_url_ok := true, browser_ok := true, url_parse_ok := true,
    url_host := some "127.0.0.1", url_port := some 8123, addr_ok := true,
    callback := (some "authcode", some "csrf"), token_exchange := .ok "token" }

/-- C7.  Once the flow has reached the callback (credentials non-empty,
URLs valid, browser opened, listener bound), a callback without a
`code` fails with `MissingCodeAuthError`, one without a `state` fails
with `MissingStateAuthError`, and a `state` different from the CSRF
token generated at request-build time fails with `CrsfMismatch`; in all
three cases the effect trace is exactly browser-open followed by
listener-bind, so the token-exchange request is never issued (last
conjunct). -/
theorem c7_protocol_errors_abort_before_exchange (settings : Settings) (env : AuthEnv)
    (host : String) (port : Nat)
    (hid : ¬ settings.client_id = "") (hsec : ¬ settings.client_secret = "")
    (hred : env.redirect_url_ok = true) (hbr : env.browser_ok = true)
    (hurl : env.url_parse_ok = true) (hhost : env.url_host = some host)
    (hport : env.url_port = some port) (haddr : env.addr_ok = true) :
    (env.callback.1 = none →
      authenticate settings env =
        (.err .MissingCodeAuthError,
         [.openBrowser (authUrlString settings.client_id env settings.redirect_url),
          .bindListener (host ++ ":" ++ toString port)]))
  ∧ (∀ code, env.callback.1 = some code → env.callback.2 = none →
      authenticate settings env =
        (.err .MissingStateAuthError,
         [.openBrowser (authUrlString settings.client_id env settings.redirect_url),
          .bindListener (host ++ ":" ++ toString port)]))
  ∧ (∀ code state, env.callback.1 = some code → env.callback.2 = some state →
      ¬ state = env.csrf_token →
      authenticate settings env =
        (.err .CrsfMismatch,
         [.openBrowser (authUrlString settings.client_id env settings.redirect_url),
          .bindListener (host ++ ":" ++ toString port)]))
  ∧ ∀ cd, AuthEffect.tokenExchange cd ∉
      [AuthEffect.openBrowser (authUrlString settings.client_id env settings.redirect_url),
       AuthEffect.bindListener (host ++ ":" ++ toString port)] := by
  refine ⟨?_, ?_, ?_, ?_⟩
  · intro hcode
    simp [authenticate, hid, hsec, hred, hbr, hurl, hhost, hport, haddr, hcode]
  · intro code hcode hstate
    simp [authenticate, hid, hsec, hred, hbr, hurl, hhost, hport, haddr, hcode, hstate]
  · intro code state hcode hstate hne
    simp [authenticate, hid, hsec, hred, hbr, hurl, hhost, hport, haddr, hcode, hstate, hne]
  · intro cd
    simp

/-- C7 witness: with a callback carrying a code but no state, the flow
fails with `MissingStateAuthError` after browser-open and listener-bind
and never issues a token exchange. -/
theorem c7_witness :
    authenticate sampleSettings { sampleAuthEnv with callback := (some "authcode", none) }
      = (.err .MissingStateAuthError,
         [.openBrowser (authUrlString "id" { sampleAuthEnv with callback := (some "authcode", none) } "http://127.0.0.1:8123"),
          .bindListener "127.0.0.1:8123"])
  ∧ ∀ cd, AuthEffect.tokenExchange cd ∉
      (authenticate sampleSettings { sampleAuthEnv with callback := (some "authcode", none) }).2 := by
  have h := c7_protocol_errors_abort_before_exchange sampleSettings
    { sampleAuthEnv with callback := (some "authcode", none) } "127.0.0.1" 8123
    (by decide) (by decide) rfl rfl rfl rfl rfl rfl
  have h2 := h.2.1 "authcode" rfl rfl
  constructor
  · exact h2
  · intro cd
    rw [h2]
    exact h.2.2.2 cd

/-- C8.  An empty client id fails with `MissingClientId`; otherwise an
empty client secret fails with `MissingClientSecret`; in both cases the
effect trace is empty — no browser open, no listener bind, and no
network call of any kind happens. -/
theorem c8_missing_credentials_fail_fast (settings : Settings) (env : AuthEnv) :
    (settings.client_id = "" →
      authenticate settings env = (.err .MissingClientId, []))
  ∧ (¬ settings.client_id = "" → settings.client_secret = "" →
      authenticate settings env = (.err .MissingClientSecret, [])) := by
  constructor
  · intro h
    simp [authenticate, h]
  · intro h1 h2
    simp [authenticate, h1, h2]

/-- C8 witness: concrete empty-credential runs. -/
theorem c8_witness :
    authenticate { sampleSettings with client_id := "" } sampleAuthEnv
      = (.err .MissingClientId, [])
  ∧ authenticate { sampleSettings with client_secret := "" } sampleAuthEnv
      = (.err .MissingClientSecret, []) :=
  ⟨(c8_missing_credentials_fail_fast { sampleSettings with client_id := "" }
      sampleAuthEnv).1 rfl,
   (c8_missing_credentials_fail_fast { sampleSettings with client_secret := "" }
      sampleAuthEnv).2 (by decide) rfl⟩

/-- C10.  `get_current_track` returns `NotATrack` exactly when a token
is present, the send succeeded, the status is not 204, the body
deserialized, and its `currently_playing_type` is not `"track"` (first
conjunct); the `item` field is not required, and a response with
`item = none` has `is_track = false` and all getters `none` (second
conjunct); such a response can be a successful `Ok` result (third
conjunct). -/
theorem c10_notATrack_iff (tok : Option String) (send : Except String HttpTrackResponse) :
    (get_current_track tok send = .error .NotATrack ↔
      tok.isSome = true ∧ ∃ resp playing, send = .ok resp ∧ ¬ resp.status = 204 ∧
        resp.body_json = .ok playing ∧ ¬ playing.currently_playing_type = "track")
  ∧ (∀ r : CurrentlyPlayingResponse, r.item = none →
      r.is_track = false ∧ r.get_track_title = none ∧ r.get_artist = none
      ∧ r.get_album = none ∧ r.get_duration_sec = none ∧ r.get_spotify_id = none)
  ∧ (∃ (tok2 : Option String) (send2 : Except String HttpTrackResponse)
        (r : CurrentlyPlayingResponse),
      get_current_track tok2 send2 = .ok r ∧ r.item = none) := by
  refine ⟨?_, ?_, ?_⟩
  · cases tok with
    | none => simp [get_current_track]
    | some t =>
      cases send with
      | error e => simp [get_current_track]
      | ok resp =>
        by_cases h204 : resp.status = 204
        · simp [get_current_track, h204]
        · cases hb : resp.body_json with
          | error e => simp [get_current_track, h204, hb]
          | ok playing =>
            by_cases htype : playing.currently_playing_type = "track"
            · simp [get_current_track, h204, hb, htype]
            · simp [get_current_track, h204, hb, htype]
  · intro r hr
    refine ⟨?_, ?_, ?_, ?_, ?_, ?_⟩ <;>
      simp [CurrentlyPlayingResponse.is_track, CurrentlyPlayingResponse.get_track_title,
        CurrentlyPlayingResponse.get_artist, CurrentlyPlayingResponse.get_album,
        CurrentlyPlayingResponse.get_duration_sec, CurrentlyPlayingResponse.get_spotify_id, hr]
  · exact ⟨some "t",
      .ok { status := 200,
            body_json := .ok { currently_playing_type := "track", item := none,
                               is_playing := true, progress_ms := 0 } },
      { currently_playing_type := "track", item := none, is_playing := true,
        progress_ms := 0 },
      rfl, rfl⟩

/-- Sample currently-playing response of a non-track item. -/
def sampleEpisodeResp : CurrentlyPlayingResponse :=
  { currently_playing_type := "episode", item := none, is_playing := true, progress_ms := 5 }

/-- C10 witness: a non-204 response of type `"episode"` yields
`NotATrack`, and a response with `item = none` has `is_track = false`
with all getters `none`. -/
theorem c10_witness :
    get_current_track (some "tok") (.ok { status := 200, body_json := .ok sampleEpisodeResp })
      = .error .NotATrack
  ∧ sampleEpisodeResp.is_track = false := by
  have h := c10_notATrack_iff (some "tok")
    (.ok { status := 200, body_json := .ok sampleEpisodeResp })
  refine ⟨h.1.mpr ⟨rfl, _, _, rfl, (by decide), rfl, (by decide)⟩, ?_⟩
  exact (h.2.1 sampleEpisodeResp rfl).1

end LyricsOverlay
